import Mathlib

/-!
Verification of the `DeepgramService` component (`src/utils/deepgram.js`) of
the simplemeeting repository.

The JavaScript class is shallowly embedded: the mutable instance fields become
an explicit record `DGState` threaded through the operations; JSON payloads
become records with `Option` fields for properties that may be absent; the
speaker-label table (`this.speakerMap`, a JS object with numeric keys and
string values) becomes an association list with unique keys, where
`Object.keys(m).length` is the list length and property assignment is `setKey`
(replace the existing key or append).  Floating-point confidence scores are
never computed with, only passed through, so they are carried as exact `Rat`
values.  Network and timer effects are made explicit: the batch HTTP exchange
is a value of type `HttpResponse` handed to `transcribeRecording`, and the
reconnect `setTimeout` is reported as the scheduled delay in milliseconds.
-/

namespace Deepgram

/-- A word entry of a Deepgram result: `{ word, punctuated_word?, speaker? }`.
`punctuated_word` and `speaker` may be absent in the JSON. -/
structure Word where
  word : String
  punctuated_word : Option String
  speaker : Option Nat
  deriving DecidableEq, Repr

/-- An alternative of a channel: `{ transcript?, confidence?, words? }`.
The code reads `alternative.words || []`, which treats an absent list and an
empty list identically, so `words` is carried as a plain list. -/
structure Alternative where
  transcript : Option String
  confidence : Option Rat
  words : List Word
  deriving DecidableEq, Repr

/-- A channel of a batch response: `{ alternatives }`.  The code reads
`channel?.alternatives` followed by `!alternatives?.length`, which treats an
absent array and an empty array identically. -/
structure Channel where
  alternatives : List Alternative
  deriving DecidableEq, Repr

/-- The parsed JSON body of a batch response: `data.results?.channels`.
A missing `results`/`channels` behaves exactly like an empty channel list. -/
structure BatchJson where
  channels : List Channel
  deriving DecidableEq, Repr

/-- The outcome of the batch `fetch` call, as observed by
`transcribeRecording`: `res.ok`, `res.status`, the body as text (read on the
error path) and the body parsed as JSON (read on the success path). -/
structure HttpResponse where
  ok : Bool
  status : Nat
  bodyText : String
  json : BatchJson
  deriving DecidableEq, Repr

/-- A parsed streaming message as consumed by `handleMessage`:
`parsed.type`, `parsed.channel?.alternatives` (absent and empty collapse, as
only the first element is inspected), and `parsed.is_final` (an absent flag is
falsy, i.e. `false`). -/
structure StreamMsg where
  type : Option String
  channelAlternatives : List Alternative
  is_final : Bool
  deriving DecidableEq, Repr

/-- The payload of the `'transcript'` event emitted by `handleMessage`. -/
structure TranscriptEvent where
  text : String
  speaker : String
  speakerId : Nat
  confidence : Option Rat
  timestamp : Nat
  is_final : Bool
  deriving DecidableEq, Repr

/-- The mutable instance state of `DeepgramService`.  The WebSocket handle is
tracked by presence only (`hasSocket`, for `this.socket !== null`); the
listener table maps an event name to the number of registered callbacks (the
callbacks themselves play no role in the verified claims). -/
structure DGState where
  apiKey : String
  hasSocket : Bool
  isConnected : Bool
  reconnectAttempts : Nat
  maxReconnectAttempts : Nat
  speakerMap : List (Nat × String)
  listeners : List (String × Nat)
  deriving DecidableEq, Repr

/-- JS object property read `m[sid]` on the speaker map: the value at the key,
or `none` when the key is absent. -/
def lookupKey : List (Nat × String) → Nat → Option String
  | [], _ => none
  | (k, v) :: rest, sid => if k = sid then some v else lookupKey rest sid

/-- JS object property write `m[sid] = v` on the speaker map: replace the
value at an existing key, or append a new key. -/
def setKey : List (Nat × String) → Nat → String → List (Nat × String)
  | [], sid, v => [(sid, v)]
  | (k, w) :: rest, sid, v =>
      if k = sid then (sid, v) :: rest else (k, w) :: setKey rest sid v

/-- The fixed alphabet `['A', ..., 'J']` of `getSpeakerLabel`. -/
def speakerLetters : List String :=
  ["A", "B", "C", "D", "E", "F", "G", "H", "I", "J"]

/-- The assignment branch of `getSpeakerLabel`: `index` is
`Object.keys(this.speakerMap).length`, the label is
`` `Speaker ${labels[index] || index}` `` (an out-of-range read of the
alphabet is `undefined`, hence falsy, so the numeric index is used). -/
def assignSpeakerLabel (m : List (Nat × String)) (sid : Nat) :
    String × List (Nat × String) :=
  let index := m.length
  let label := "Speaker " ++ ((speakerLetters.get? index).getD (toString index))
  (label, setKey m sid label)

/-- `getSpeakerLabel(speakerId)`: if `!this.speakerMap[speakerId]` (the key is
absent, or its value is the falsy empty string) assign a fresh label,
otherwise return the stored label with the table unchanged. -/
def getSpeakerLabel (m : List (Nat × String)) (sid : Nat) :
    String × List (Nat × String) :=
  match lookupKey m sid with
  | some l => if l = "" then assignSpeakerLabel m sid else (l, m)
  | none => assignSpeakerLabel m sid

/-- `words[0]?.speaker ?? 0`: the speaker id of the first word, defaulting to
`0` when the list is empty or the first word has no speaker field. -/
def firstSpeakerId : List Word → Nat
  | [] => 0
  | w :: _ => w.speaker.getD 0

/-- `handleMessage(data)` on an already-parsed payload (a JSON parse failure
is caught and logged, emitting nothing).  `now` stands for `Date.now()`.
Returns the updated state and the emitted `'transcript'` event, if any:
a `Metadata`-typed payload returns early; otherwise an event is emitted
exactly when a first alternative exists whose `transcript` is truthy
(present and non-empty) and `is_final` holds. -/
def handleMessage (s : DGState) (msg : StreamMsg) (now : Nat) :
    DGState × Option TranscriptEvent :=
  if msg.type = some "Metadata" then (s, none)
  else
    match msg.channelAlternatives with
    | [] => (s, none)
    | alt :: _ =>
      match alt.transcript with
      | some t =>
          if t ≠ "" ∧ msg.is_final = true then
            let sid := firstSpeakerId alt.words
            let p := getSpeakerLabel s.speakerMap sid
            ({ s with speakerMap := p.2 },
              some { text := t, speaker := p.1, speakerId := sid,
                     confidence := alt.confidence, timestamp := now,
                     is_final := true })
          else (s, none)
      | none => (s, none)

/-- `w.punctuated_word || w.word`: the punctuated form when present and
truthy (non-empty), else the raw form. -/
def wordText (w : Word) : String :=
  match w.punctuated_word with
  | some p => if p = "" then w.word else p
  | none => w.word

/-- `w.speaker ?? 0` inside the segmentation loop. -/
def wordSpeaker (w : Word) : Nat := w.speaker.getD 0

/-- The local mutable state of the segmentation loop in
`transcribeRecording`: `this.speakerMap`, `lines`, `currentSpeaker`
(initially `null`), `currentWords`. -/
structure SegSt where
  map : List (Nat × String)
  lines : List String
  cur : Option Nat
  curWords : List String
  deriving DecidableEq, Repr

/-- Flush of the pending segment:
`lines.push(`${label}: ${currentWords.join(' ')}`)` with
`label = this.getSpeakerLabel(currentSpeaker)`.  It only runs when
`currentWords` is non-empty, in which case `currentSpeaker` is non-null;
the `getD 0` default is therefore never exercised. -/
def segFlushLine (st : SegSt) : SegSt :=
  let p := getSpeakerLabel st.map (st.cur.getD 0)
  { st with
    map := p.2
    lines := st.lines ++ [p.1 ++ ": " ++ String.intercalate " " st.curWords] }

/-- One iteration of `for (const w of words)`: on a speaker change flush the
pending segment (if non-empty) and open a fresh one, then push the word's
text. -/
def segStep (st : SegSt) (w : Word) : SegSt :=
  let speaker := wordSpeaker w
  let st1 :=
    if some speaker ≠ st.cur then
      let st' := if st.curWords ≠ [] then segFlushLine st else st
      { st' with cur := some speaker, curWords := [] }
    else st
  { st1 with curWords := st1.curWords ++ [wordText w] }

/-- The whole `for` loop over the word list. -/
def segLoop : SegSt → List Word → SegSt
  | st, [] => st
  | st, w :: ws => segLoop (segStep st w) ws

/-- The trailing `if (currentWords.length) { ... }` flush after the loop. -/
def segFinalize (st : SegSt) : SegSt :=
  if st.curWords ≠ [] then segFlushLine st else st

/-- The speaker-segmentation block of `transcribeRecording`, run after
`this.speakerMap = {}`: the loop, the final flush, and `lines.join('\n')`.
Returns the transcript together with the speaker map it built. -/
def segment (ws : List Word) : String × List (Nat × String) :=
  let st := segFinalize (segLoop { map := [], lines := [], cur := none, curWords := [] } ws)
  (String.intercalate "\n" st.lines, st.map)

/-- `data.results?.channels?.[0]` followed by `channel?.alternatives`:
the first channel's alternatives, empty when there is no channel. -/
def firstAlts (b : BatchJson) : List Alternative :=
  match b.channels with
  | [] => []
  | c :: _ => c.alternatives

/-- `transcribeRecording(audioBlob)` after the `fetch` resolved to `res`:
a non-ok status throws `` `Deepgram: ${res.status} ${err}` ``; otherwise the
first channel's first alternative is located (no alternative: `''`; no words:
`alternative.transcript ?? ''`); with words, the speaker map is reset and the
segmentation runs, its final map becoming the instance's map. -/
def transcribeRecording (s : DGState) (res : HttpResponse) :
    Except String (String × DGState) :=
  if res.ok = false then
    .error ("Deepgram: " ++ toString res.status ++ " " ++ res.bodyText)
  else
    match firstAlts res.json with
    | [] => .ok ("", s)
    | alt :: _ =>
      if alt.words = [] then .ok (alt.transcript.getD "", s)
      else
        let p := segment alt.words
        .ok (p.1, { s with speakerMap := p.2 })

/-- `close()`: the socket (if any) is closed with code 1000 and nulled, the
status set to disconnected, and the speaker map emptied. -/
def close (s : DGState) : DGState :=
  { s with hasSocket := false, isConnected := false, speakerMap := [] }

/-- `attemptReconnect()`: increment the attempt counter, then schedule a
`connect` after `2000 * this.reconnectAttempts` ms (the incremented value).
The scheduled delay is returned explicitly. -/
def attemptReconnect (s : DGState) : DGState × Nat :=
  let s' := { s with reconnectAttempts := s.reconnectAttempts + 1 }
  (s', 2000 * s'.reconnectAttempts)

/-- The `socket.onclose` handler: mark disconnected, and on an abnormal close
code (`≠ 1000`) with the attempt counter below the ceiling, run
`attemptReconnect`.  The second component is the scheduled reconnect delay,
`none` when no attempt is scheduled. -/
def onClose (s : DGState) (code : Nat) : DGState × Option Nat :=
  let s1 := { s with isConnected := false }
  if code ≠ 1000 ∧ s1.reconnectAttempts < s1.maxReconnectAttempts then
    let p := attemptReconnect s1
    (p.1, some p.2)
  else (s1, none)

/-! ### Specification-side definitions

These definitions follow the words of the specification, to be compared with
the loop above: segmentation is described as grouping maximal runs of
consecutive words sharing a speaker id, then rendering each run as
`"{label}: {joined words}"` and joining the runs with newlines; the label
allocator is described by the first-seen order of distinct speaker ids. -/

/-- Spec-side run grouping: extend the current run `(sp, acc)` while the
speaker id stays `sp`, and open a new run exactly when it changes. -/
def collectRun (sp : Nat) (acc : List String) : List Word → List (Nat × List String)
  | [] => [(sp, acc)]
  | w :: ws =>
      if wordSpeaker w = sp then collectRun sp (acc ++ [wordText w]) ws
      else (sp, acc) :: collectRun (wordSpeaker w) [wordText w] ws

/-- Spec-side segmentation: the maximal runs of consecutive words sharing a
speaker id, each run carrying its word texts in order; the very first word
opens the first run. -/
def specSegments : List Word → List (Nat × List String)
  | [] => []
  | w :: ws => collectRun (wordSpeaker w) [wordText w] ws

/-- Spec-side rendering: each run becomes `"{label}: {words joined by single
spaces}"`, with labels resolved left to right through the allocator. -/
def renderSegments (m : List (Nat × String)) :
    List (Nat × List String) → List String × List (Nat × String)
  | [] => ([], m)
  | (sp, ts) :: rest =>
      let p := getSpeakerLabel m sp
      let q := renderSegments p.2 rest
      ((p.1 ++ ": " ++ String.intercalate " " ts) :: q.1, q.2)

/-- Spec-side transcript: render the runs starting from an empty (reset)
label table and join the rendered lines with newlines. -/
def specTranscriptPair (ws : List Word) : String × List (Nat × String) :=
  let p := renderSegments [] (specSegments ws)
  (String.intercalate "\n" p.1, p.2)

/-- The distinct speaker ids of `ids` in first-seen order, continuing a list
`seen` of ids already seen. -/
def seenExtend : List Nat → List Nat → List Nat
  | seen, [] => seen
  | seen, x :: xs => seenExtend (if x ∈ seen then seen else seen ++ [x]) xs

/-- The distinct speaker ids of `ids` in first-seen order. -/
def firstSeen (ids : List Nat) : List Nat := seenExtend [] ids

/-- The label the allocator hands to the `i`-th (0-based) distinct speaker:
`"Speaker A"`..`"Speaker J"` for `i < 10`, then `"Speaker {i}"`. -/
def labelString (i : Nat) : String :=
  "Speaker " ++ ((speakerLetters.get? i).getD (toString i))

/-- The canonical label table after the ids `ds` (assumed distinct) were
allocated in order, the first receiving label index `i`. -/
def canonFrom (i : Nat) : List Nat → List (Nat × String)
  | [] => []
  | x :: xs => (x, labelString i) :: canonFrom (i + 1) xs

/-- The canonical label table for the distinct id list `ds`. -/
def canonMap (ds : List Nat) : List (Nat × String) := canonFrom 0 ds

/-- The table after a sequence of `getSpeakerLabel` calls starting from an
empty table. -/
def allocAll (ids : List Nat) : List (Nat × String) :=
  ids.foldl (fun m sid => (getSpeakerLabel m sid).2) []

/-- A word whose missing speaker field is made explicit as speaker `0`. -/
def normalizeSpeaker (w : Word) : Word :=
  { w with speaker := some (w.speaker.getD 0) }

/-! ### Helper lemmas -/

/-- A string starting with `"Speaker "` is never empty, hence never falsy. -/
theorem speaker_prefix_ne_empty (x : String) : ("Speaker " ++ x) ≠ "" := by
  intro h
  have h2 := congrArg String.data h
  simp at h2

/-- The label produced by the assignment branch is non-empty. -/
theorem assignSpeakerLabel_fst_ne_empty (m : List (Nat × String)) (sid : Nat) :
    (assignSpeakerLabel m sid).1 ≠ "" :=
  speaker_prefix_ne_empty _

/-- Reading back the key just written returns the written value. -/
theorem lookupKey_setKey_self (m : List (Nat × String)) (sid : Nat) (v : String) :
    lookupKey (setKey m sid v) sid = some v := by
  induction m with
  | nil => simp [setKey, lookupKey]
  | cons kv rest ih =>
    obtain ⟨k, w⟩ := kv
    by_cases h : k = sid
    · simp [setKey, h, lookupKey]
    · simp [setKey, h, lookupKey, ih]

/-- After the assignment branch, the table stores the assigned label. -/
theorem lookupKey_assignSpeakerLabel (m : List (Nat × String)) (sid : Nat) :
    lookupKey (assignSpeakerLabel m sid).2 sid = some (assignSpeakerLabel m sid).1 := by
  simp [assignSpeakerLabel, lookupKey_setKey_self]

/-- The segmentation loop, continued from a state with a pending segment
`(sp, cw)` (non-empty, speaker known), produces exactly the rendering of the
runs collected by the spec-side grouping, appended to the lines so far. -/
theorem segLoop_spec (ws : List Word) :
    ∀ (m : List (Nat × String)) (lines : List String) (sp : Nat)
      (cw : List String), cw ≠ [] →
    (segFinalize (segLoop ⟨m, lines, some sp, cw⟩ ws)).lines
        = lines ++ (renderSegments m (collectRun sp cw ws)).1
    ∧ (segFinalize (segLoop ⟨m, lines, some sp, cw⟩ ws)).map
        = (renderSegments m (collectRun sp cw ws)).2 := by
  induction ws with
  | nil =>
    intro m lines sp cw hcw
    simp [segLoop, segFinalize, hcw, segFlushLine, collectRun, renderSegments]
  | cons w ws ih =>
    intro m lines sp cw hcw
    by_cases hsp : wordSpeaker w = sp
    · have hstep : segStep ⟨m, lines, some sp, cw⟩ w
          = ⟨m, lines, some sp, cw ++ [wordText w]⟩ := by
        simp [segStep, hsp]
      have hih := ih m lines sp (cw ++ [wordText w]) (by simp)
      rw [segLoop, hstep]
      rw [show collectRun sp cw (w :: ws)
            = collectRun sp (cw ++ [wordText w]) ws by
          simp [collectRun, hsp]]
      exact hih
    · have hstep : segStep ⟨m, lines, some sp, cw⟩ w
          = ⟨(getSpeakerLabel m sp).2,
             lines ++ [(getSpeakerLabel m sp).1 ++ ": "
               ++ String.intercalate " " cw],
             some (wordSpeaker w), [wordText w]⟩ := by
        simp [segStep, segFlushLine, hsp, hcw]
      have hih := ih (getSpeakerLabel m sp).2
        (lines ++ [(getSpeakerLabel m sp).1 ++ ": "
          ++ String.intercalate " " cw])
        (wordSpeaker w) [wordText w] (by simp)
      rw [segLoop, hstep]
      rw [show collectRun sp cw (w :: ws)
            = (sp, cw) :: collectRun (wordSpeaker w) [wordText w] ws by
          simp [collectRun, hsp]]
      rw [show renderSegments m ((sp, cw)
              :: collectRun (wordSpeaker w) [wordText w] ws)
            = (((getSpeakerLabel m sp).1 ++ ": " ++ String.intercalate " " cw)
                :: (renderSegments (getSpeakerLabel m sp).2
                      (collectRun (wordSpeaker w) [wordText w] ws)).1,
               (renderSegments (getSpeakerLabel m sp).2
                  (collectRun (wordSpeaker w) [wordText w] ws)).2) by
          simp [renderSegments]]
      refine ⟨?_, hih.2⟩
      rw [hih.1]
      simp

/-- The segmentation block coincides with the spec-side description:
group maximal runs of consecutive same-speaker words, render each as
`"{label}: {joined words}"` through the (reset) allocator, join with
newlines. -/
theorem segment_eq_spec (ws : List Word) : segment ws = specTranscriptPair ws := by
  cases ws with
  | nil => rfl
  | cons w ws =>
    have hstep : segStep ⟨[], [], none, []⟩ w
        = ⟨[], [], some (wordSpeaker w), [wordText w]⟩ := by
      simp [segStep]
    have h := segLoop_spec ws [] [] (wordSpeaker w) [wordText w] (by simp)
    simp only [segment, segLoop, hstep, specTranscriptPair, specSegments,
      h.1, h.2, List.nil_append]

/-- The emission branch of `handleMessage`: with a non-`Metadata` type, a
first alternative, a non-empty transcript and finality, the event is emitted
with the allocator's label for the first word's speaker id. -/
theorem handleMessage_emit (s : DGState) (msg : StreamMsg) (now : Nat)
    (alt : Alternative) (rest : List Alternative) (t : String)
    (hty : msg.type ≠ some "Metadata")
    (halt : msg.channelAlternatives = alt :: rest)
    (ht : alt.transcript = some t) (hne : t ≠ "") (hf : msg.is_final = true) :
    handleMessage s msg now
      = ({ s with speakerMap :=
             (getSpeakerLabel s.speakerMap (firstSpeakerId alt.words)).2 },
         some ⟨t, (getSpeakerLabel s.speakerMap (firstSpeakerId alt.words)).1,
               firstSpeakerId alt.words, alt.confidence, now, true⟩) := by
  simp [handleMessage, hty, halt, ht, hne, hf]

/-- A word with its default speaker made explicit behaves identically in the
segmentation step. -/
theorem segStep_normalize (st : SegSt) (w : Word) :
    segStep st (normalizeSpeaker w) = segStep st w := rfl

/-- Normalizing missing speakers to `0` does not change the loop. -/
theorem segLoop_normalize (ws : List Word) :
    ∀ st, segLoop st (ws.map normalizeSpeaker) = segLoop st ws := by
  induction ws with
  | nil => intro st; rfl
  | cons w ws ih =>
    intro st
    simp only [List.map_cons, segLoop, segStep_normalize]
    exact ih _

/-- Labels handed out by the allocator are never empty. -/
theorem labelString_ne_empty (i : Nat) : labelString i ≠ "" :=
  speaker_prefix_ne_empty _

/-- The canonical table has one entry per allocated id. -/
theorem canonFrom_length (ds : List Nat) :
    ∀ i, (canonFrom i ds).length = ds.length := by
  induction ds with
  | nil => intro i; rfl
  | cons d ds ih => intro i; simp [canonFrom, ih]

/-- An id never allocated is absent from the canonical table. -/
theorem lookupKey_canonFrom_not_mem (ds : List Nat) :
    ∀ i x, x ∉ ds → lookupKey (canonFrom i ds) x = none := by
  induction ds with
  | nil => intro i x _; rfl
  | cons d ds ih =>
    intro i x hx
    have hne : d ≠ x := fun h => hx (h ▸ List.mem_cons_self d ds)
    simp [canonFrom, lookupKey, hne]
    exact ih (i + 1) x (fun h => hx (List.mem_cons_of_mem d h))

/-- An allocated id is stored in the canonical table with a non-empty label. -/
theorem lookupKey_canonFrom_mem (ds : List Nat) :
    ∀ i x, x ∈ ds →
    ∃ v, lookupKey (canonFrom i ds) x = some v ∧ v ≠ "" := by
  induction ds with
  | nil => intro i x hx; exact absurd hx (List.not_mem_nil x)
  | cons d ds ih =>
    intro i x hx
    by_cases hdx : d = x
    · exact ⟨labelString i, by simp [canonFrom, lookupKey, hdx],
        labelString_ne_empty i⟩
    · have hmem : x ∈ ds := by
        cases List.mem_cons.mp hx with
        | inl h => exact absurd h.symm hdx
        | inr h => exact h
      obtain ⟨v, hv, hne⟩ := ih (i + 1) x hmem
      exact ⟨v, by simp [canonFrom, lookupKey, hdx, hv], hne⟩

/-- Writing an absent key appends it. -/
theorem setKey_append (m : List (Nat × String)) (x : Nat) (v : String) :
    ∀ _ : lookupKey m x = none, setKey m x v = m ++ [(x, v)] := by
  induction m with
  | nil => intro _; rfl
  | cons kv rest ih =>
    obtain ⟨k, w⟩ := kv
    intro h
    by_cases hk : k = x
    · simp [lookupKey, hk] at h
    · simp [lookupKey, hk] at h
      simp [setKey, hk, ih h]

/-- The canonical table for one more allocated id appends the next label. -/
theorem canonFrom_append (ds : List Nat) :
    ∀ i x, canonFrom i (ds ++ [x])
      = canonFrom i ds ++ [(x, labelString (i + ds.length))] := by
  induction ds with
  | nil => intro i x; simp [canonFrom]
  | cons d ds ih =>
    intro i x
    have hstep : canonFrom i ((d :: ds) ++ [x])
        = (d, labelString i) :: canonFrom (i + 1) (ds ++ [x]) := rfl
    have hstep2 : canonFrom i (d :: ds)
        = (d, labelString i) :: canonFrom (i + 1) ds := rfl
    rw [hstep, ih (i + 1) x, hstep2]
    simp only [List.length_cons, List.cons_append]
    rw [show i + 1 + ds.length = i + (ds.length + 1) by omega]

/-- One allocator call on a canonical table: a seen id leaves the table
unchanged, an unseen id extends it canonically. -/
theorem getSpeakerLabel_canon (ds : List Nat) (x : Nat) :
    (x ∈ ds → (getSpeakerLabel (canonMap ds) x).2 = canonMap ds)
    ∧ (x ∉ ds → (getSpeakerLabel (canonMap ds) x).2 = canonMap (ds ++ [x])) := by
  constructor
  · intro hx
    obtain ⟨v, hv, hne⟩ := lookupKey_canonFrom_mem ds 0 x hx
    simp [getSpeakerLabel, canonMap, hv, hne]
  · intro hx
    have hnone : lookupKey (canonMap ds) x = none :=
      lookupKey_canonFrom_not_mem ds 0 x hx
    have hlen : (canonMap ds).length = ds.length := canonFrom_length ds 0
    have happ : canonMap (ds ++ [x])
        = canonMap ds ++ [(x, labelString (0 + ds.length))] :=
      canonFrom_append ds 0 x
    simp only [getSpeakerLabel, hnone, assignSpeakerLabel, hlen]
    rw [setKey_append (canonMap ds) x _ hnone, happ]
    simp [labelString]

/-- A distinct list stays distinct when an unseen element is appended. -/
theorem nodup_concat (x : Nat) :
    ∀ ds : List Nat, ds.Nodup → x ∉ ds → (ds ++ [x]).Nodup := by
  intro ds hnd hx
  rw [List.nodup_append]
  refine ⟨hnd, List.nodup_singleton x, ?_⟩
  intro a ha hb
  rw [List.mem_singleton] at hb
  exact hx (hb ▸ ha)

/-- Folding the allocator over ids, starting from the canonical table of the
distinct ids seen so far, yields the canonical table of the extended
first-seen list. -/
theorem foldl_alloc_canon (ids : List Nat) :
    ∀ ds : List Nat, ds.Nodup →
    (ids.foldl (fun m sid => (getSpeakerLabel m sid).2) (canonMap ds)
        = canonMap (seenExtend ds ids))
    ∧ (seenExtend ds ids).Nodup := by
  induction ids with
  | nil => intro ds h; exact ⟨rfl, h⟩
  | cons x ids ih =>
    intro ds h
    by_cases hx : x ∈ ds
    · have hstep := (getSpeakerLabel_canon ds x).1 hx
      have hseen : seenExtend ds (x :: ids) = seenExtend ds ids := by
        simp [seenExtend, hx]
      rw [List.foldl_cons, hstep, hseen]
      exact ih ds h
    · have hstep := (getSpeakerLabel_canon ds x).2 hx
      have hseen : seenExtend ds (x :: ids) = seenExtend (ds ++ [x]) ids := by
        simp [seenExtend, hx]
      rw [List.foldl_cons, hstep, hseen]
      exact ih (ds ++ [x]) (nodup_concat x ds h hx)

/-- The table built by any call sequence from an empty table is the canonical
table of the distinct ids in first-seen order (which are distinct). -/
theorem allocAll_eq_canon (ids : List Nat) :
    allocAll ids = canonMap (firstSeen ids) ∧ (firstSeen ids).Nodup :=
  foldl_alloc_canon ids [] List.nodup_nil

/-- In the canonical table of a distinct id list, the `j`-th id carries the
`(i+j)`-th label. -/
theorem lookupKey_canonFrom_get (ds : List Nat) :
    ∀ (i j : Nat) (hj : j < ds.length), ds.Nodup →
    lookupKey (canonFrom i ds) (ds.get ⟨j, hj⟩) = some (labelString (i + j)) := by
  induction ds with
  | nil => intro i j hj _; exact absurd hj (by simp)
  | cons d ds ih =>
    intro i j hj hnd
    cases j with
    | zero => simp [canonFrom, lookupKey]
    | succ j =>
      have hj' : j < ds.length := by
        have := hj
        simp at this
        omega
      have hd : d ∉ ds := (List.nodup_cons.mp hnd).1
      have hne : d ≠ ds.get ⟨j, hj'⟩ :=
        fun h => hd (h ▸ List.get_mem ds j hj')
      have hget : (d :: ds).get ⟨j + 1, hj⟩ = ds.get ⟨j, hj'⟩ := rfl
      rw [hget]
      simp only [canonFrom, lookupKey, if_neg hne]
      rw [ih (i + 1) j hj' (List.nodup_cons.mp hnd).2]
      rw [show i + 1 + j = i + (j + 1) by omega]

/-! ### Claim theorems -/

/-- C9: `close()` modifies only the connection handle (nulled), the connection
status (set to disconnected), and the speaker-label table (emptied); the
credential, the reconnect-attempt counter, its ceiling, and the listener table
are left unchanged. -/
theorem c9_close_frame (s : DGState) :
    (close s).hasSocket = false ∧ (close s).isConnected = false ∧
    (close s).speakerMap = [] ∧
    (close s).apiKey = s.apiKey ∧
    (close s).reconnectAttempts = s.reconnectAttempts ∧
    (close s).maxReconnectAttempts = s.maxReconnectAttempts ∧
    (close s).listeners = s.listeners :=
  ⟨rfl, rfl, rfl, rfl, rfl, rfl, rfl⟩

/-- C8: calling `getSpeakerLabel` twice in succession with the same speaker id
returns the identical label both times, and the second call leaves the table
unchanged. -/
theorem c8_labelFor_idempotent (m : List (Nat × String)) (sid : Nat) :
    getSpeakerLabel (getSpeakerLabel m sid).2 sid
      = ((getSpeakerLabel m sid).1, (getSpeakerLabel m sid).2) := by
  cases hl : lookupKey m sid with
  | none =>
    have h1 : getSpeakerLabel m sid = assignSpeakerLabel m sid := by
      simp [getSpeakerLabel, hl]
    rw [h1]
    simp [getSpeakerLabel, lookupKey_assignSpeakerLabel,
      assignSpeakerLabel_fst_ne_empty m sid]
  | some l =>
    by_cases he : l = ""
    · have h1 : getSpeakerLabel m sid = assignSpeakerLabel m sid := by
        simp [getSpeakerLabel, hl, he]
      rw [h1]
      simp [getSpeakerLabel, lookupKey_assignSpeakerLabel,
        assignSpeakerLabel_fst_ne_empty m sid]
    · have h1 : getSpeakerLabel m sid = (l, m) := by
        simp [getSpeakerLabel, hl, he]
      rw [h1]
      simp [getSpeakerLabel, hl, he]

/-- C6: a non-success HTTP status makes `transcribeRecording` fail with the
message `"Deepgram: {status} {body}"` — which contains both the numeric status
code and the response body text — and return no transcript. -/
theorem c6_batch_http_error (s : DGState) (res : HttpResponse)
    (h : res.ok = false) :
    transcribeRecording s res
      = .error ("Deepgram: " ++ toString res.status ++ " " ++ res.bodyText)
    ∧ ∃ pre mid,
        ("Deepgram: " ++ toString res.status ++ " " ++ res.bodyText)
          = pre ++ toString res.status ++ mid ++ res.bodyText := by
  refine ⟨by simp [transcribeRecording, h], "Deepgram: ", " ", rfl⟩

/-- C6 witness: a 401 response with body `"Unauthorized"` fails with a message
containing both. -/
theorem c6_batch_http_error_witness :
    transcribeRecording ⟨"k", false, false, 0, 3, [], []⟩
        ⟨false, 401, "Unauthorized", ⟨[]⟩⟩
      = .error "Deepgram: 401 Unauthorized" := by
  have h := c6_batch_http_error ⟨"k", false, false, 0, 3, [], []⟩
    ⟨false, 401, "Unauthorized", ⟨[]⟩⟩ rfl
  exact h.1

/-- C7: on a successful batch response, no alternative yields the empty
result, and an alternative without word-level data yields its flat transcript
string unchanged. -/
theorem c7_batch_empty_paths (s : DGState) (res : HttpResponse)
    (hok : res.ok = true) :
    (firstAlts res.json = [] → transcribeRecording s res = .ok ("", s))
    ∧ (∀ alt rest t, firstAlts res.json = alt :: rest → alt.words = [] →
        alt.transcript = some t → transcribeRecording s res = .ok (t, s)) := by
  constructor
  · intro h
    simp [transcribeRecording, hok, h]
  · intro alt rest t h hw ht
    simp [transcribeRecording, hok, h, hw, ht]

/-- C7 witness: a response with an alternative carrying flat transcript
`"hello world"` and no words returns `"hello world"` unchanged. -/
theorem c7_batch_empty_paths_witness :
    transcribeRecording ⟨"k", false, false, 0, 3, [], []⟩
        ⟨true, 200, "", ⟨[⟨[⟨some "hello world", none, []⟩]⟩]⟩⟩
      = .ok ("hello world", ⟨"k", false, false, 0, 3, [], []⟩) := by
  exact (c7_batch_empty_paths ⟨"k", false, false, 0, 3, [], []⟩
    ⟨true, 200, "", ⟨[⟨[⟨some "hello world", none, []⟩]⟩]⟩⟩ rfl).2
    ⟨some "hello world", none, []⟩ [] "hello world" rfl rfl rfl

/-- C5: on an abnormal closure below the ceiling of 3, a reconnect is
scheduled with linear delay `attempt_number × 2000` ms, the counter having
been incremented before scheduling; at or above the ceiling no attempt is
scheduled and the status remains disconnected. -/
theorem c5_reconnect_policy (s : DGState) (code : Nat) (hcode : code ≠ 1000)
    (hmax : s.maxReconnectAttempts = 3) :
    (s.reconnectAttempts < 3 →
      onClose s code
        = ({ s with isConnected := false,
                    reconnectAttempts := s.reconnectAttempts + 1 },
           some (2000 * (s.reconnectAttempts + 1))))
    ∧ (3 ≤ s.reconnectAttempts →
      onClose s code = ({ s with isConnected := false }, none)) := by
  constructor
  · intro hlt
    have hc : code ≠ 1000 ∧
        ({ s with isConnected := false } : DGState).reconnectAttempts
          < ({ s with isConnected := false } : DGState).maxReconnectAttempts := by
      exact ⟨hcode, by simp [hmax]; omega⟩
    simp [onClose, attemptReconnect, if_pos hc]
  · intro hge
    have hc : ¬ (code ≠ 1000 ∧
        ({ s with isConnected := false } : DGState).reconnectAttempts
          < ({ s with isConnected := false } : DGState).maxReconnectAttempts) := by
      simp [hmax]
      intro _
      omega
    simp [onClose, if_neg hc]

/-- C5 witness: from a fresh state (counter 0, ceiling 3), three abnormal
closures schedule delays 2000, 4000, 6000 ms, and a fourth abnormal closure
schedules nothing, leaving the status disconnected. -/
theorem c5_reconnect_policy_witness :
    (onClose ⟨"k", true, true, 0, 3, [], []⟩ 1006).2 = some 2000
    ∧ (onClose ⟨"k", true, true, 2, 3, [], []⟩ 1006).2 = some 6000
    ∧ onClose ⟨"k", true, true, 3, 3, [], []⟩ 1006
        = (⟨"k", true, false, 3, 3, [], []⟩, none) := by
  refine ⟨?_, ?_, ?_⟩
  · have h := (c5_reconnect_policy ⟨"k", true, true, 0, 3, [], []⟩
      1006 (by decide) rfl).1 (by decide)
    rw [h]
    rfl
  · have h := (c5_reconnect_policy ⟨"k", true, true, 2, 3, [], []⟩
      1006 (by decide) rfl).1 (by decide)
    rw [h]
    rfl

  · exact (c5_reconnect_policy ⟨"k", true, true, 3, 3, [], []⟩
      1006 (by decide) rfl).2 (by decide)

/-- C4 counterexample: the claim says the speaker-label table is emptied at
the start of every batch transcription call, but a successful call whose
response has no alternatives returns early and leaves a non-empty table
unchanged. -/
theorem c4_counterexample :
    transcribeRecording ⟨"k", false, false, 0, 3, [(7, "Speaker A")], []⟩
        ⟨true, 200, "", ⟨[]⟩⟩
      = .ok ("", ⟨"k", false, false, 0, 3, [(7, "Speaker A")], []⟩)
    ∧ ([(7, "Speaker A")] : List (Nat × String)) ≠ [] := by
  exact ⟨rfl, by simp⟩

/-- C4 (amended): the speaker-label table is emptied on every `close()` call —
after which `labelFor 0` reassigns `"Speaker A"` — and during a batch
transcription call exactly when the word-level segmentation path is reached
(the resulting table is rebuilt from empty, independent of the previous one);
a call returning early with no alternatives leaves the table unchanged. -/
theorem c4_amended_reset (s : DGState) :
    ((close s).speakerMap = []
      ∧ getSpeakerLabel (close s).speakerMap 0 = ("Speaker A", [(0, "Speaker A")]))
    ∧ (∀ (res : HttpResponse) (alt : Alternative) (rest : List Alternative),
        res.ok = true → firstAlts res.json = alt :: rest → alt.words ≠ [] →
        transcribeRecording s res
          = .ok ((segment alt.words).1,
                 { s with speakerMap := (segment alt.words).2 }))
    ∧ (∀ res : HttpResponse, res.ok = true → firstAlts res.json = [] →
        transcribeRecording s res = .ok ("", s)) := by
  refine ⟨⟨rfl, rfl⟩, ?_, ?_⟩
  · intro res alt rest hok halts hw
    simp [transcribeRecording, hok, halts, hw]
  · intro res hok halts
    simp [transcribeRecording, hok, halts]

/-- C4 witness: concrete instantiation — after `close` the table is empty and
`labelFor 0` yields `"Speaker A"`; a word-level batch call rebuilds the table
from empty; an early-returning call leaves the table unchanged. -/
theorem c4_amended_reset_witness :
    getSpeakerLabel
        (close ⟨"k", true, true, 0, 3, [(7, "Speaker C")], []⟩).speakerMap 0
      = ("Speaker A", [(0, "Speaker A")])
    ∧ transcribeRecording ⟨"k", false, false, 0, 3, [(7, "Speaker C")], []⟩
        ⟨true, 200, "", ⟨[⟨[⟨some "hi", none, [⟨"hi", none, some 4⟩]⟩]⟩]⟩⟩
      = .ok ("Speaker A: hi",
             ⟨"k", false, false, 0, 3, [(4, "Speaker A")], []⟩) := by
  constructor
  · exact (c4_amended_reset ⟨"k", true, true, 0, 3, [(7, "Speaker C")], []⟩).1.2
  · have h := (c4_amended_reset
      ⟨"k", false, false, 0, 3, [(7, "Speaker C")], []⟩).2.1
      ⟨true, 200, "", ⟨[⟨[⟨some "hi", none, [⟨"hi", none, some 4⟩]⟩]⟩]⟩⟩
      ⟨some "hi", none, [⟨"hi", none, some 4⟩]⟩ [] rfl rfl (by simp)
    rw [h]
    rfl

/-- C1: with word-level speaker data, `transcribeRecording` resets the
speaker-label table and produces the transcript described by the spec:
maximal runs of consecutive same-speaker words become segments (a new segment
opens exactly on a speaker change, the first word opening the first segment),
each word contributing its punctuated form if present else its raw form,
joined by single spaces; each segment renders as `"{label}: {joined words}"`
and segments are joined by newlines in encounter order, the final pending
segment always flushed. -/
theorem c1_batch_segmentation (s : DGState) (res : HttpResponse)
    (alt : Alternative) (rest : List Alternative)
    (hok : res.ok = true) (halts : firstAlts res.json = alt :: rest)
    (hw : alt.words ≠ []) :
    transcribeRecording s res
      = .ok ((specTranscriptPair alt.words).1,
             { s with speakerMap := (specTranscriptPair alt.words).2 }) := by
  simp [transcribeRecording, hok, halts, hw, segment_eq_spec]

/-- C1 witness: the spec's batch example — words `hi/0, there/0, bye/1`
reconstruct exactly `"Speaker A: hi there\nSpeaker B: bye"`. -/
theorem c1_batch_segmentation_witness :
    transcribeRecording ⟨"k", false, false, 0, 3, [], []⟩
        ⟨true, 200, "", ⟨[⟨[⟨some "hi there bye", none,
          [⟨"hi", none, some 0⟩, ⟨"there", none, some 0⟩,
           ⟨"bye", none, some 1⟩]⟩]⟩]⟩⟩
      = .ok ("Speaker A: hi there\nSpeaker B: bye",
             ⟨"k", false, false, 0, 3,
              [(0, "Speaker A"), (1, "Speaker B")], []⟩) := by
  have h := c1_batch_segmentation ⟨"k", false, false, 0, 3, [], []⟩
    ⟨true, 200, "", ⟨[⟨[⟨some "hi there bye", none,
      [⟨"hi", none, some 0⟩, ⟨"there", none, some 0⟩,
       ⟨"bye", none, some 1⟩]⟩]⟩]⟩⟩
    ⟨some "hi there bye", none,
      [⟨"hi", none, some 0⟩, ⟨"there", none, some 0⟩,
       ⟨"bye", none, some 1⟩]⟩ [] rfl rfl (by simp)
  rw [h]
  rfl

/-- C2: `handleMessage` emits a transcript event iff the parsed payload is
not typed `Metadata`, exposes a first alternative with non-empty transcript
text, and is marked final; the emitted event carries the text, the allocator's
label for the first word's speaker id (0 for an empty word list), the raw id,
the confidence, the current timestamp, and finality `true`. -/
theorem c2_handleMessage_emission (s : DGState) (msg : StreamMsg) (now : Nat) :
    ((handleMessage s msg now).2.isSome
      ↔ (msg.type ≠ some "Metadata"
          ∧ ∃ alt rest, msg.channelAlternatives = alt :: rest
              ∧ ∃ t, alt.transcript = some t ∧ t ≠ "" ∧ msg.is_final = true))
    ∧ (∀ alt rest t, msg.type ≠ some "Metadata"
        → msg.channelAlternatives = alt :: rest
        → alt.transcript = some t → t ≠ "" → msg.is_final = true →
        handleMessage s msg now
          = ({ s with speakerMap :=
                 (getSpeakerLabel s.speakerMap (firstSpeakerId alt.words)).2 },
             some ⟨t,
               (getSpeakerLabel s.speakerMap (firstSpeakerId alt.words)).1,
               firstSpeakerId alt.words, alt.confidence, now, true⟩)) := by
  constructor
  · by_cases hty : msg.type = some "Metadata"
    · simp [handleMessage, hty]
    · cases halt : msg.channelAlternatives with
      | nil => simp [handleMessage, hty, halt]
      | cons alt rest =>
        cases ht : alt.transcript with
        | none => simp [handleMessage, hty, halt, ht]
        | some t =>
          by_cases hne : t = ""
          · simp [handleMessage, hty, halt, ht, hne]
          · cases hf : msg.is_final with
            | false => simp [handleMessage, hty, halt, ht, hf]
            | true =>
              rw [handleMessage_emit s msg now alt rest t hty halt ht hne hf]
              simp only [Option.isSome_some, true_iff]
              exact ⟨hty, alt, rest, rfl, t, ht, hne, by trivial⟩
  · intro alt rest t hty halt ht hne hf
    exact handleMessage_emit s msg now alt rest t hty halt ht hne hf

/-- C2 witness: the spec's streaming example — a final message with
transcript `"hello"`, confidence 0.9 and words `[{word:"hello", speaker:1}]`
emits an event with label `"Speaker A"`, raw id 1 and finality `true`; and a
`Metadata`-typed payload emits nothing. -/
theorem c2_handleMessage_emission_witness :
    handleMessage ⟨"k", true, true, 0, 3, [], []⟩
        ⟨some "Results",
         [⟨some "hello", some (9 / 10), [⟨"hello", none, some 1⟩]⟩], true⟩ 5
      = (⟨"k", true, true, 0, 3, [(1, "Speaker A")], []⟩,
         some ⟨"hello", "Speaker A", 1, some (9 / 10), 5, true⟩)
    ∧ (handleMessage ⟨"k", true, true, 0, 3, [], []⟩
        ⟨some "Metadata",
         [⟨some "hello", some (9 / 10), [⟨"hello", none, some 1⟩]⟩], true⟩
        5).2.isSome = false := by
  constructor
  · have h := (c2_handleMessage_emission ⟨"k", true, true, 0, 3, [], []⟩
      ⟨some "Results",
       [⟨some "hello", some (9 / 10), [⟨"hello", none, some 1⟩]⟩], true⟩ 5).2
      ⟨some "hello", some (9 / 10), [⟨"hello", none, some 1⟩]⟩ [] "hello"
      (by simp) rfl rfl (by simp) rfl
    rw [h]
    rfl
  · have h := (c2_handleMessage_emission ⟨"k", true, true, 0, 3, [], []⟩
      ⟨some "Metadata",
       [⟨some "hello", some (9 / 10), [⟨"hello", none, some 1⟩]⟩], true⟩ 5).1
    simp at h ⊢
    exact h

/-- C10: a word entry lacking a speaker field is treated as speaker `0` in
both paths: batch segmentation is unchanged by making the default explicit,
and in streaming a present first word without a speaker field yields speaker
id 0 (with the corresponding allocator label) in the emitted event. -/
theorem c10_missing_speaker_zero :
    (∀ ws : List Word, segment (ws.map normalizeSpeaker) = segment ws)
    ∧ (∀ (s : DGState) (msg : StreamMsg) (now : Nat) (alt : Alternative)
        (rest : List Alternative) (w : Word) (wrest : List Word)
        (ev : TranscriptEvent),
        msg.channelAlternatives = alt :: rest →
        alt.words = w :: wrest → w.speaker = none →
        (handleMessage s msg now).2 = some ev →
        ev.speakerId = 0 ∧ ev.speaker = (getSpeakerLabel s.speakerMap 0).1) := by
  constructor
  · intro ws
    simp [segment, segLoop_normalize]
  · intro s msg now alt rest w wrest ev halt hw hsp hev
    have hsid : firstSpeakerId alt.words = 0 := by
      rw [hw]
      simp [firstSpeakerId, hsp]
    by_cases hty : msg.type = some "Metadata"
    · simp [handleMessage, hty] at hev
    · cases ht : alt.transcript with
      | none => simp [handleMessage, hty, halt, ht] at hev
      | some t =>
        by_cases hne : t = ""
        · simp [handleMessage, hty, halt, ht, hne] at hev
        · cases hf : msg.is_final with
          | false => simp [handleMessage, hty, halt, ht, hf] at hev
          | true =>
            rw [handleMessage_emit s msg now alt rest t hty halt ht hne hf]
              at hev
            simp only [Option.some.injEq] at hev
            rw [← hev, hsid]
            exact ⟨rfl, rfl⟩

/-- C10 witness: a batch word list whose middle word lacks a speaker field
segments it as speaker 0, and a streaming first word without a speaker field
emits speaker id 0. -/
theorem c10_missing_speaker_zero_witness :
    segment [⟨"hi", none, none⟩, ⟨"there", none, some 0⟩,
             ⟨"bye", none, some 1⟩]
      = segment [⟨"hi", none, some 0⟩, ⟨"there", none, some 0⟩,
                 ⟨"bye", none, some 1⟩]
    ∧ (handleMessage ⟨"k", true, true, 0, 3, [], []⟩
        ⟨some "Results", [⟨some "hello", none, [⟨"hello", none, none⟩]⟩],
         true⟩ 5).2
      = some ⟨"hello", "Speaker A", 0, none, 5, true⟩ := by
  constructor
  · exact (c10_missing_speaker_zero).1
      [⟨"hi", none, none⟩, ⟨"there", none, some 0⟩, ⟨"bye", none, some 1⟩]
  · have h := (c10_missing_speaker_zero).2 ⟨"k", true, true, 0, 3, [], []⟩
      ⟨some "Results", [⟨some "hello", none, [⟨"hello", none, none⟩]⟩], true⟩
      5 ⟨some "hello", none, [⟨"hello", none, none⟩]⟩ []
      ⟨"hello", none, none⟩ [] ⟨"hello", "Speaker A", 0, none, 5, true⟩
      rfl rfl rfl rfl
    rfl

/-- C3: starting from an empty table, the distinct speaker ids in first-seen
order receive the labels `labelString 0, labelString 1, ...` — the first 10
being exactly (and bijectively, as they are pairwise distinct)
`"Speaker A"`..`"Speaker J"`, and the 11th being `"Speaker 10"`, the numeric
allocation index rather than the raw id. -/
theorem c3_allocator_labels (ids : List Nat) (i : Nat)
    (hi : i < (firstSeen ids).length) :
    lookupKey (allocAll ids) ((firstSeen ids).get ⟨i, hi⟩)
      = some (labelString i)
    ∧ List.map labelString (List.range 10)
        = ["Speaker A", "Speaker B", "Speaker C", "Speaker D", "Speaker E",
           "Speaker F", "Speaker G", "Speaker H", "Speaker I", "Speaker J"]
    ∧ labelString 10 = "Speaker 10"
    ∧ (List.map labelString (List.range 11)).Nodup := by
  obtain ⟨heq, hnd⟩ := allocAll_eq_canon ids
  refine ⟨?_, by decide, by decide, by decide⟩
  rw [heq]
  have h := lookupKey_canonFrom_get (firstSeen ids) 0 i hi hnd
  simpa using h

/-- C3 witness: with id sequence `[5, 7, 5, 9]` the third distinct id (9)
gets `"Speaker C"`, and with 11 distinct ids the 11th (raw id 42) gets
`"Speaker 10"`. -/
theorem c3_allocator_labels_witness :
    lookupKey (allocAll [5, 7, 5, 9])
        ((firstSeen [5, 7, 5, 9]).get ⟨2, by decide⟩) = some "Speaker C"
    ∧ lookupKey (allocAll [0, 1, 2, 3, 4, 5, 6, 7, 8, 9, 42])
        ((firstSeen [0, 1, 2, 3, 4, 5, 6, 7, 8, 9, 42]).get ⟨10, by decide⟩)
      = some "Speaker 10" := by
  constructor
  · rw [(c3_allocator_labels [5, 7, 5, 9] 2 (by decide)).1]
    rfl
  · rw [(c3_allocator_labels [0, 1, 2, 3, 4, 5, 6, 7, 8, 9, 42] 10
      (by decide)).1]
    rfl

end Deepgram
